import Mathlib

/-
Verification development for the markdown → styled HTML/PDF document
pipeline of the `pdf_beautifier` package (`pdf_generator.py`, `agent.py`).

The Python code is shallowly embedded:
  * Python `str.replace` (replace every non-overlapping occurrence, scanning
    left to right, never rescanning inserted text) is `pyReplace`, defined on
    character lists with an explicit fuel equal to the input length so that
    every definition stays executable by the kernel.
  * Python dicts holding document metadata are association lists together
    with `lookupKey` / `setdefaultKey` / `setKey`; `dict.setdefault` appends
    a binding only when the key is absent, and in-place mutation of the
    caller's dict is modelled by returning the updated map (state passing).
  * The filesystem is a map `String → Option String` from paths to file
    contents; raising code is embedded with `Except String`.
-/

set_option maxRecDepth 200000

namespace PdfBeautifier

/-! ### Python `str.replace`, modelled on character lists -/

/-- One fuel-indexed step function for Python `str.replace`: scan left to
right, and at each position either copy one character or, when the pattern
is a prefix of the remaining text, emit the replacement and skip the
pattern.  With fuel at least the length of the input the fuel never runs
out (for a nonempty pattern every step strictly shortens the input). -/
def replGo (pat repl : List Char) : Nat → List Char → List Char
  | 0, s => s
  | _ + 1, [] => []
  | f + 1, c :: cs =>
    if pat <+: (c :: cs) then
      repl ++ replGo pat repl f (List.drop pat.length (c :: cs))
    else
      c :: replGo pat repl f cs

/-- Python `str.replace` on character lists. -/
def replList (pat repl s : List Char) : List Char :=
  replGo pat repl s.length s

/-- Python `s.replace(pat, repl)`. -/
def pyReplace (s pat repl : String) : String :=
  String.mk (replList pat.data repl.data s.data)

/-- Python `pat in s` (substring test). -/
def strContains (s pat : String) : Bool :=
  decide (pat.data <:+: s.data)

/-! ### Python dicts as association lists -/

/-- Metadata dictionaries: `{"title": ..., "author": ..., ...}`. -/
abbrev Metadata := List (String × String)

/-- Python `d[k]` as an optional lookup (first binding wins). -/
def lookupKey {β : Type} : List (String × β) → String → Option β
  | [], _ => none
  | (k0, v) :: rest, key => if k0 = key then some v else lookupKey rest key

/-- Python `d.setdefault(k, v)`: insert the binding only when absent. -/
def setdefaultKey (m : Metadata) (k v : String) : Metadata :=
  if (lookupKey m k).isSome then m else m ++ [(k, v)]

/-- Python `d[k] = v`: overwrite in place or append a new binding. -/
def setKey : Metadata → String → String → Metadata
  | [], k, v => [(k, v)]
  | (k0, v0) :: rest, k, v =>
    if k0 = k then (k, v) :: rest else (k0, v0) :: setKey rest k v

/-! ### The color-theme registry (`PDFGenerator.COLOR_THEMES`) -/

def blueTheme : Metadata :=
  [("primary", "#2563eb"), ("secondary", "#1e40af"), ("tertiary", "#1e3a8a"),
   ("accent", "#3b82f6"), ("light", "#dbeafe")]

def greenTheme : Metadata :=
  [("primary", "#059669"), ("secondary", "#047857"), ("tertiary", "#065f46"),
   ("accent", "#10b981"), ("light", "#d1fae5")]

def purpleTheme : Metadata :=
  [("primary", "#7c3aed"), ("secondary", "#6d28d9"), ("tertiary", "#5b21b6"),
   ("accent", "#8b5cf6"), ("light", "#ede9fe")]

def redTheme : Metadata :=
  [("primary", "#dc2626"), ("secondary", "#b91c1c"), ("tertiary", "#991b1b"),
   ("accent", "#ef4444"), ("light", "#fee2e2")]

def orangeTheme : Metadata :=
  [("primary", "#ea580c"), ("secondary", "#c2410c"), ("tertiary", "#9a3412"),
   ("accent", "#f97316"), ("light", "#fed7aa")]

/-- `PDFGenerator.COLOR_THEMES`. -/
def COLOR_THEMES : List (String × Metadata) :=
  [("blue", blueTheme), ("green", greenTheme), ("purple", purpleTheme),
   ("red", redTheme), ("orange", orangeTheme)]

/-- `self.COLOR_THEMES.get(color_theme, self.COLOR_THEMES["blue"])`. -/
def resolveTheme (name : String) : Metadata :=
  match lookupKey COLOR_THEMES name with
  | some t => t
  | none => blueTheme

/-! ### Style sheet materialization (`PDFGenerator._generate_css`) -/

/-- The five sequential color substitutions of `_generate_css`: the literal
blue placeholder hex values are replaced by the resolved theme's tokens. -/
def applyTheme (theme : Metadata) (css : String) : String :=
  let c1 := pyReplace css ("#2563eb") ((lookupKey theme ("primary")).getD (""))
  let c2 := pyReplace c1 ("#1e40af") ((lookupKey theme ("secondary")).getD (""))
  let c3 := pyReplace c2 ("#1e3a8a") ((lookupKey theme ("tertiary")).getD (""))
  let c4 := pyReplace c3 ("#3b82f6") ((lookupKey theme ("accent")).getD (""))
  pyReplace c4 ("#dbeafe") ((lookupKey theme ("light")).getD (""))

/-- `PDFGenerator._generate_css` over an abstract filesystem `fs`.
`<style>.css` is looked up in the template directory; when absent the load
falls back to `business_report.css`; a failing open raises a
`FileNotFoundError` whose message names the path, re-raised with the
`CSS 로드 실패` prefix.  (The embedded error message drops Python's quoting
of the path but keeps the path itself.) -/
def generateCss (fs : String → Option String) (dir style theme : String) :
    Except String String :=
  let p1 := dir ++ "/" ++ style ++ ".css"
  let p := if (fs p1).isSome then p1 else dir ++ "/business_report.css"
  match fs p with
  | some content => Except.ok (applyTheme (resolveTheme theme) content)
  | none =>
    Except.error ("CSS 로드 실패: [Errno 2] No such file or directory: " ++ p)

/-! ### Theorems for C3 (theme resolution) and C4 (template fallback) -/

/-- C3: theme resolution is a pure, deterministic lookup with no failure
mode: every registered theme carries all five tokens, resolving any name
twice yields the same tokens, and a name absent from the registry resolves
to the default (blue) theme instead of failing. -/
theorem theme_resolution_total_and_deterministic :
    (∀ e ∈ COLOR_THEMES,
      ∀ k ∈ (["primary", "secondary", "tertiary", "accent", "light"] : List String),
        (lookupKey e.2 k).isSome = true)
    ∧ (∀ n : String, resolveTheme n = resolveTheme n)
    ∧ (∀ n : String, lookupKey COLOR_THEMES n = none → resolveTheme n = blueTheme) := by
  refine ⟨by decide, fun n => rfl, fun n h => ?_⟩
  simp [resolveTheme, h]

/-- Witness for C3: the unregistered theme name "pink" resolves to the
default blue theme. -/
theorem theme_resolution_total_and_deterministic_witness :
    resolveTheme ("pink") = blueTheme :=
  theme_resolution_total_and_deterministic.2.2 ("pink") (by decide)

/-- C4: when `<style>.css` is absent, `_generate_css` falls back to
`business_report.css` and succeeds if that file exists; when the fallback
file is also absent it fails with a wrapped error whose message contains
the missing fallback path. -/
theorem generate_css_fallback (fs : String → Option String)
    (dir style theme : String)
    (hmiss : fs (dir ++ "/" ++ style ++ ".css") = none) :
    (∀ d, fs (dir ++ "/business_report.css") = some d →
      generateCss fs dir style theme = Except.ok (applyTheme (resolveTheme theme) d))
    ∧ (fs (dir ++ "/business_report.css") = none →
      ∃ e, generateCss fs dir style theme = Except.error e
        ∧ strContains e (dir ++ "/business_report.css") = true) := by
  constructor
  · intro d hd
    simp [generateCss, hmiss, hd]
  · intro hd
    refine ⟨"CSS 로드 실패: [Errno 2] No such file or directory: "
        ++ (dir ++ "/business_report.css"), ?_, ?_⟩
    · simp [generateCss, hmiss, hd]
    · rw [strContains, decide_eq_true_iff]
      refine ⟨("CSS 로드 실패: [Errno 2] No such file or directory: ").data, [], ?_⟩
      simp [String.data_append]

/-- Witness for C4: with an empty filesystem the materializer fails and the
message names the fallback path; with only the fallback present it succeeds
with the fallback content. -/
theorem generate_css_fallback_witness :
    (∃ e, generateCss (fun _ => none) ("templates") ("fancy") ("blue") = Except.error e
      ∧ strContains e ("templates" ++ "/business_report.css") = true)
    ∧ generateCss
        (fun p => if p = "templates/business_report.css" then some ("h1 color #2563eb") else none)
        ("templates") ("fancy") ("blue")
      = Except.ok (applyTheme (resolveTheme ("blue")) ("h1 color #2563eb")) :=
  ⟨(generate_css_fallback (fun _ => none) ("templates") ("fancy") ("blue") rfl).2 rfl,
   (generate_css_fallback
      (fun p => if p = "templates/business_report.css" then some ("h1 color #2563eb") else none)
      ("templates") ("fancy") ("blue") (by decide)).1 ("h1 color #2563eb") (by decide)⟩

/-! ### Title extraction (`PDFBeautifierAgent._extract_title`) -/

/-- Python `str.isspace` members relevant to `str.strip()` (ASCII range). -/
def isPySpace (c : Char) : Bool :=
  c == ' ' || c == '\t' || c == '\n' || c == '\r' || c == '\x0b' || c == '\x0c'

/-- Python `str.strip()` on character lists. -/
def stripList (l : List Char) : List Char :=
  ((l.dropWhile isPySpace).reverse.dropWhile isPySpace).reverse

/-- Python `str.split("\n")` on character lists. -/
def splitOnNl : List Char → List (List Char)
  | [] => [[]]
  | c :: r =>
    if c = '\n' then [] :: splitOnNl r
    else
      match splitOnNl r with
      | [] => [[c]]
      | l :: ls => (c :: l) :: ls

/-- The character set of Python `line.lstrip("# ")`. -/
def isHashOrSpace (c : Char) : Bool :=
  c == '#' || c == ' '

/-- The scanning loop of `_extract_title`: the first line whose stripped
text starts with `"# "` yields the title (leading hashes and spaces
stripped); otherwise the literal `"Document"`. -/
def titleFromLines : List (List Char) → String
  | [] => "Document"
  | l :: rest =>
    if ("# ").data <+: stripList l then
      String.mk (stripList ((stripList l).dropWhile isHashOrSpace))
    else titleFromLines rest

/-- `PDFBeautifierAgent._extract_title`. -/
def extractTitle (content : String) : String :=
  titleFromLines (splitOnNl (stripList content.data))

/-! ### Metadata defaulting sequences -/

/-- The `metadata.setdefault` block of `PDFGenerator.generate_pdf`; since
`dict.setdefault` mutates the caller's dict in place, this is also the
caller's dict after the call. -/
def pdfDefaultMeta (m : Metadata) : Metadata :=
  setdefaultKey
    (setdefaultKey
      (setdefaultKey
        (setdefaultKey m ("title") ("Document"))
        ("author") ("PDF Beautifier Agent"))
      ("subject") ("Generated Report"))
    ("creator") ("LangChain PDF Beautifier")

/-- The `metadata.setdefault` block of `PDFBeautifierAgent.markdown_to_pdf`
(title from the first heading, fixed author). -/
def mdToPdfPrepMeta (m : Metadata) (md : String) : Metadata :=
  setdefaultKey (setdefaultKey m ("title") (extractTitle md))
    ("author") ("PDF Beautifier Agent")

/-- The caller's dict after `markdown_to_pdf` returns: the same object is
defaulted first by the agent and then by `generate_pdf`. -/
def mdToPdfFinalMeta (m : Metadata) (md : String) : Metadata :=
  pdfDefaultMeta (mdToPdfPrepMeta m md)

/-- The metadata-preparation block of `PDFBeautifierAgent.beautify`:
an explicit title overwrites, otherwise the first markdown heading is the
default; then author/subject/keywords/creator defaults. -/
def beautifyPrepMeta (title author : Option String) (m : Metadata)
    (md : String) : Metadata :=
  let m1 :=
    match title with
    | some t => setKey m ("title") t
    | none => setdefaultKey m ("title") (extractTitle md)
  let m2 := setdefaultKey m1 ("author") (author.getD ("PDF Beautifier Agent"))
  let m3 := setdefaultKey m2 ("subject")
    (((lookupKey m2 ("title")).getD ("")) ++ " - Generated Report")
  let m4 := setdefaultKey m3 ("keywords") ("report, analysis, business")
  setdefaultKey m4 ("creator") ("LangChain PDF Beautifier")

/-! ### Lookup lemmas for the dict model -/

lemma lookupKey_append_isSome {β : Type} (m m' : List (String × β)) (k : String)
    (h : (lookupKey m k).isSome = true) : lookupKey (m ++ m') k = lookupKey m k := by
  induction m with
  | nil => simp [lookupKey] at h
  | cons p rest ih =>
    obtain ⟨k0, v⟩ := p
    by_cases hk : k0 = k
    · simp [lookupKey, hk]
    · simp only [lookupKey, if_neg hk] at h
      simp only [List.cons_append, lookupKey, if_neg hk]
      exact ih h

lemma lookupKey_append_none {β : Type} (m m' : List (String × β)) (k : String)
    (h : lookupKey m k = none) : lookupKey (m ++ m') k = lookupKey m' k := by
  induction m with
  | nil => simp [lookupKey]
  | cons p rest ih =>
    obtain ⟨k0, v⟩ := p
    by_cases hk : k0 = k
    · simp [lookupKey, hk] at h
    · simp only [lookupKey, if_neg hk] at h
      simp only [List.cons_append, lookupKey, if_neg hk]
      exact ih h

lemma lookupKey_setdefaultKey_self (m : Metadata) (k v : String) :
    lookupKey (setdefaultKey m k v) k = some ((lookupKey m k).getD v) := by
  unfold setdefaultKey
  cases h : lookupKey m k with
  | some w => simp [h]
  | none =>
    rw [if_neg (by simp [h])]
    rw [lookupKey_append_none _ _ _ h]
    simp [lookupKey]

lemma lookupKey_setdefaultKey_ne (m : Metadata) (k k' v : String) (h : k' ≠ k) :
    lookupKey (setdefaultKey m k v) k' = lookupKey m k' := by
  unfold setdefaultKey
  by_cases hs : (lookupKey m k).isSome = true
  · simp [hs]
  · rw [if_neg (by simpa using hs)]
    cases h2 : lookupKey m k' with
    | some w => rw [lookupKey_append_isSome _ _ _ (by simp [h2]), h2]
    | none =>
      rw [lookupKey_append_none _ _ _ h2]
      simp [lookupKey, Ne.symm h]

lemma lookupKey_setdefaultKey_preserve (m : Metadata) (k' v' k w : String)
    (h : lookupKey m k = some w) :
    lookupKey (setdefaultKey m k' v') k = some w := by
  unfold setdefaultKey
  by_cases hs : (lookupKey m k').isSome = true
  · simp [hs, h]
  · rw [if_neg (by simpa using hs)]
    rw [lookupKey_append_isSome _ _ _ (by simp [h])]
    exact h

lemma lookupKey_setdefaultKey_isSome (m : Metadata) (k v : String) :
    (lookupKey (setdefaultKey m k v) k).isSome = true := by
  rw [lookupKey_setdefaultKey_self]
  rfl

lemma lookupKey_setdefaultKey_isSome_mono (m : Metadata) (k k' v' : String)
    (h : (lookupKey m k).isSome = true) :
    (lookupKey (setdefaultKey m k' v') k).isSome = true := by
  cases hw : lookupKey m k with
  | none => rw [hw] at h; simp at h
  | some w => rw [lookupKey_setdefaultKey_preserve m k' v' k w hw]; rfl

/-! ### Result dictionaries of the public agent operations -/

/-- The result dict of `PDFBeautifierAgent.beautify`. -/
structure BeautifyResult where
  success : Bool
  pdf_path : Option String
  markdown : Option String
  metadata : Option Metadata
  message : String
  error : Option String

/-- The result dict of `PDFBeautifierAgent.preview_html`. -/
structure PreviewResult where
  success : Bool
  html_path : Option String
  markdown : Option String
  message : String
  error : Option String

/-- The result dict of `PDFBeautifierAgent.markdown_to_pdf`. -/
structure MdPdfResult where
  success : Bool
  pdf_path : Option String
  metadata : Option Metadata
  message : String
  error : Option String

/-- `PDFBeautifierAgent.beautify`.  The two raising stages — the LLM text
analyzer and `PDFGenerator.generate_pdf` — are passed in as `Except`-valued
outcomes, matching the `try`/`except` that catches every exception and
returns the failure dict; the metadata preparation between them is total
(it only reads keys it has just set). -/
def beautify (analyzeRes : Except String String)
    (genRes : String → Metadata → Except String String)
    (title author : Option String) (meta0 : Option Metadata) : BeautifyResult :=
  match analyzeRes with
  | Except.error e =>
    ⟨false, none, none, none, "PDF 생성 중 오류가 발생했습니다: " ++ e, some e⟩
  | Except.ok md =>
    let m := beautifyPrepMeta title author (meta0.getD []) md
    match genRes md m with
    | Except.error e =>
      ⟨false, none, none, none, "PDF 생성 중 오류가 발생했습니다: " ++ e, some e⟩
    | Except.ok p =>
      ⟨true, some p, some md, some m, "PDF가 성공적으로 생성되었습니다: " ++ p, none⟩

/-- `PDFBeautifierAgent.preview_html`, with the analyzer and
`PDFGenerator.preview_html` outcomes passed in as `Except` values. -/
def agentPreviewHtml (analyzeRes : Except String String)
    (prevRes : String → Except String String) : PreviewResult :=
  match analyzeRes with
  | Except.error e =>
    ⟨false, none, none, "HTML 생성 중 오류가 발생했습니다: " ++ e, some e⟩
  | Except.ok md =>
    match prevRes md with
    | Except.error e =>
      ⟨false, none, none, "HTML 생성 중 오류가 발생했습니다: " ++ e, some e⟩
    | Except.ok p =>
      ⟨true, some p, some md, "HTML 미리보기가 생성되었습니다: " ++ p, none⟩

/-- `PDFBeautifierAgent.markdown_to_pdf`, with the `generate_pdf` outcome
passed in as an `Except` value. -/
def agentMarkdownToPdf (genRes : String → Metadata → Except String String)
    (mdContent : String) (meta0 : Option Metadata) : MdPdfResult :=
  let m := mdToPdfPrepMeta (meta0.getD []) mdContent
  match genRes mdContent m with
  | Except.error e =>
    ⟨false, none, none, "PDF 생성 중 오류가 발생했습니다: " ++ e, some e⟩
  | Except.ok p =>
    ⟨true, some p, some m, "PDF가 성공적으로 생성되었습니다: " ++ p, none⟩

/-! ### Theorems for C1, C6, C8, C9 -/

/-- C1: the three public agent operations are total and never propagate a
stage failure: each returns a result dict where `success = true` exactly
when the artifact path is non-null, and a failure carries a null artifact
path together with a nonempty descriptive message. -/
theorem public_operations_never_throw
    (a : Except String String) (g : String → Metadata → Except String String)
    (pv : String → Except String String)
    (t au : Option String) (m0 : Option Metadata) (mdc : String) :
    (((beautify a g t au m0).success = true
        ↔ ((beautify a g t au m0).pdf_path).isSome = true)
      ∧ ((beautify a g t au m0).success = false →
          (beautify a g t au m0).pdf_path = none
            ∧ 0 < (beautify a g t au m0).message.length))
    ∧ (((agentPreviewHtml a pv).success = true
        ↔ ((agentPreviewHtml a pv).html_path).isSome = true)
      ∧ ((agentPreviewHtml a pv).success = false →
          (agentPreviewHtml a pv).html_path = none
            ∧ 0 < (agentPreviewHtml a pv).message.length))
    ∧ (((agentMarkdownToPdf g mdc m0).success = true
        ↔ ((agentMarkdownToPdf g mdc m0).pdf_path).isSome = true)
      ∧ ((agentMarkdownToPdf g mdc m0).success = false →
          (agentMarkdownToPdf g mdc m0).pdf_path = none
            ∧ 0 < (agentMarkdownToPdf g mdc m0).message.length)) := by
  have hlen : ∀ (pre e : String), 0 < pre.length → 0 < (pre ++ e).length := by
    intro pre e h
    rw [String.length_append]
    omega
  refine ⟨?_, ?_, ?_⟩
  · rcases a with e | md
    · exact ⟨by simp [beautify], fun _ => ⟨rfl, hlen _ _ (by decide)⟩⟩
    · cases hg : g md (beautifyPrepMeta t au (m0.getD []) md) with
      | error e =>
        refine ⟨by simp [beautify, hg], fun _ => ⟨?_, ?_⟩⟩
        · simp [beautify, hg]
        · simp only [beautify, hg]
          exact hlen _ _ (by decide)
      | ok p =>
        refine ⟨by simp [beautify, hg], fun hf => ?_⟩
        simp [beautify, hg] at hf
  · rcases a with e | md
    · exact ⟨by simp [agentPreviewHtml], fun _ => ⟨rfl, hlen _ _ (by decide)⟩⟩
    · cases hg : pv md with
      | error e =>
        refine ⟨by simp [agentPreviewHtml, hg], fun _ => ⟨?_, ?_⟩⟩
        · simp [agentPreviewHtml, hg]
        · simp only [agentPreviewHtml, hg]
          exact hlen _ _ (by decide)
      | ok p =>
        refine ⟨by simp [agentPreviewHtml, hg], fun hf => ?_⟩
        simp [agentPreviewHtml, hg] at hf
  · cases hg : g mdc (mdToPdfPrepMeta (m0.getD []) mdc) with
    | error e =>
      refine ⟨by simp [agentMarkdownToPdf, hg], fun _ => ⟨?_, ?_⟩⟩
      · simp [agentMarkdownToPdf, hg]
      · simp only [agentMarkdownToPdf, hg]
        exact hlen _ _ (by decide)
    | ok p =>
      refine ⟨by simp [agentMarkdownToPdf, hg], fun hf => ?_⟩
      simp [agentMarkdownToPdf, hg] at hf

/-- Witness for C1: a failing generator stage yields a failure dict with a
null path, and a succeeding pipeline yields a success dict with the path. -/
theorem public_operations_never_throw_witness :
    ((beautify (Except.error ("boom"))
        (fun _ _ => Except.ok ("/x.pdf")) none none none).success = false →
      (beautify (Except.error ("boom"))
        (fun _ _ => Except.ok ("/x.pdf")) none none none).pdf_path = none
        ∧ 0 < (beautify (Except.error ("boom"))
            (fun _ _ => Except.ok ("/x.pdf")) none none none).message.length)
    ∧ ((agentMarkdownToPdf (fun _ _ => Except.ok ("/x.pdf")) ("# T") none).success = true
      ↔ ((agentMarkdownToPdf (fun _ _ => Except.ok ("/x.pdf")) ("# T") none).pdf_path).isSome
          = true) :=
  ⟨(public_operations_never_throw (Except.error ("boom"))
      (fun _ _ => Except.ok ("/x.pdf")) (fun _ => Except.ok ("/y.html"))
      none none none ("# T")).1.2,
   (public_operations_never_throw (Except.error ("boom"))
      (fun _ _ => Except.ok ("/x.pdf")) (fun _ => Except.ok ("/y.html"))
      none none none ("# T")).2.2.1⟩

/-- C6: with no explicit title, `markdown_to_pdf` defaults the metadata
title to the extracted first top-level heading; a document whose first
line is `# Quarterly Report` yields the title `Quarterly Report`, and a
document with no `# `-heading line yields the literal `Document`. -/
theorem metadata_title_from_first_heading :
    (∀ (m : Metadata) (md : String), lookupKey m ("title") = none →
        lookupKey (mdToPdfPrepMeta m md) ("title") = some (extractTitle md))
    ∧ (∀ (content : String) (more : List (List Char)),
        splitOnNl (stripList content.data) = ("# Quarterly Report").data :: more →
        extractTitle content = "Quarterly Report")
    ∧ (∀ content : String,
        (∀ l ∈ splitOnNl (stripList content.data), ¬ (("# ").data <+: stripList l)) →
        extractTitle content = "Document") := by
  refine ⟨?_, ?_, ?_⟩
  · intro m md h
    unfold mdToPdfPrepMeta
    rw [lookupKey_setdefaultKey_ne _ _ _ _ (by decide)]
    rw [lookupKey_setdefaultKey_self, h]
    rfl
  · intro content more h
    rw [extractTitle, h]
    rw [show titleFromLines ((("# Quarterly Report").data) :: more)
        = if ("# ").data <+: stripList (("# Quarterly Report").data) then
            String.mk (stripList (((stripList (("# Quarterly Report").data))).dropWhile
              isHashOrSpace))
          else titleFromLines more from rfl]
    rw [if_pos (by decide)]
    decide
  · intro content h
    rw [extractTitle]
    revert h
    generalize splitOnNl (stripList content.data) = ls
    intro h
    induction ls with
    | nil => rfl
    | cons l rest ih =>
      rw [show titleFromLines (l :: rest)
          = if ("# ").data <+: stripList l then
              String.mk (stripList ((stripList l).dropWhile isHashOrSpace))
            else titleFromLines rest from rfl]
      rw [if_neg (h l (by simp))]
      exact ih (fun x hx => h x (by simp [hx]))

/-- Witness for C6: concrete documents exercising all three conjuncts. -/
theorem metadata_title_from_first_heading_witness :
    lookupKey (mdToPdfPrepMeta [] ("# Hi\nBody")) ("title")
        = some (extractTitle ("# Hi\nBody"))
    ∧ extractTitle ("# Quarterly Report\nBody") = "Quarterly Report"
    ∧ extractTitle ("No heading here at all") = "Document" :=
  ⟨metadata_title_from_first_heading.1 [] ("# Hi\nBody") rfl,
   metadata_title_from_first_heading.2.1 ("# Quarterly Report\nBody")
     [("Body").data] (by decide),
   metadata_title_from_first_heading.2.2 ("No heading here at all") (by decide)⟩

/-- C9: `generate_pdf` and `markdown_to_pdf` work on the caller's own
metadata dict (Python `dict.setdefault` mutates in place; the embedding
returns the post-call state of that dict): keys among title, author,
subject, creator that were missing are defaulted in the caller's dict,
and keys the caller did supply keep their values. -/
theorem caller_metadata_mutated_in_place (m : Metadata) (md : String) :
    (lookupKey m ("title") = none →
      lookupKey (pdfDefaultMeta m) ("title") = some ("Document"))
    ∧ (lookupKey m ("author") = none →
      lookupKey (pdfDefaultMeta m) ("author") = some ("PDF Beautifier Agent"))
    ∧ (lookupKey m ("subject") = none →
      lookupKey (pdfDefaultMeta m) ("subject") = some ("Generated Report"))
    ∧ (lookupKey m ("creator") = none →
      lookupKey (pdfDefaultMeta m) ("creator") = some ("LangChain PDF Beautifier"))
    ∧ (∀ k v, lookupKey m k = some v → lookupKey (pdfDefaultMeta m) k = some v)
    ∧ (lookupKey m ("title") = none →
      lookupKey (mdToPdfFinalMeta m md) ("title") = some (extractTitle md))
    ∧ (lookupKey m ("subject") = none →
      lookupKey (mdToPdfFinalMeta m md) ("subject") = some ("Generated Report")) := by
  refine ⟨?_, ?_, ?_, ?_, ?_, ?_, ?_⟩
  · intro h
    unfold pdfDefaultMeta
    rw [lookupKey_setdefaultKey_ne _ _ _ _ (by decide),
      lookupKey_setdefaultKey_ne _ _ _ _ (by decide),
      lookupKey_setdefaultKey_ne _ _ _ _ (by decide),
      lookupKey_setdefaultKey_self, h]
    rfl
  · intro h
    unfold pdfDefaultMeta
    rw [lookupKey_setdefaultKey_ne _ _ _ _ (by decide),
      lookupKey_setdefaultKey_ne _ _ _ _ (by decide),
      lookupKey_setdefaultKey_self,
      lookupKey_setdefaultKey_ne _ _ _ _ (by decide), h]
    rfl
  · intro h
    unfold pdfDefaultMeta
    rw [lookupKey_setdefaultKey_ne _ _ _ _ (by decide),
      lookupKey_setdefaultKey_self,
      lookupKey_setdefaultKey_ne _ _ _ _ (by decide),
      lookupKey_setdefaultKey_ne _ _ _ _ (by decide), h]
    rfl
  · intro h
    unfold pdfDefaultMeta
    rw [lookupKey_setdefaultKey_self,
      lookupKey_setdefaultKey_ne _ _ _ _ (by decide),
      lookupKey_setdefaultKey_ne _ _ _ _ (by decide),
      lookupKey_setdefaultKey_ne _ _ _ _ (by decide), h]
    rfl
  · intro k v h
    unfold pdfDefaultMeta
    exact lookupKey_setdefaultKey_preserve _ _ _ _ _
      (lookupKey_setdefaultKey_preserve _ _ _ _ _
        (lookupKey_setdefaultKey_preserve _ _ _ _ _
          (lookupKey_setdefaultKey_preserve _ _ _ _ _ h)))
  · intro h
    unfold mdToPdfFinalMeta pdfDefaultMeta
    have h1 : lookupKey (mdToPdfPrepMeta m md) ("title") = some (extractTitle md) := by
      unfold mdToPdfPrepMeta
      rw [lookupKey_setdefaultKey_ne _ _ _ _ (by decide),
        lookupKey_setdefaultKey_self, h]
      rfl
    exact lookupKey_setdefaultKey_preserve _ _ _ _ _
      (lookupKey_setdefaultKey_preserve _ _ _ _ _
        (lookupKey_setdefaultKey_preserve _ _ _ _ _
          (lookupKey_setdefaultKey_preserve _ _ _ _ _ h1)))
  · intro h
    unfold mdToPdfFinalMeta pdfDefaultMeta
    have h1 : lookupKey (mdToPdfPrepMeta m md) ("subject") = none := by
      unfold mdToPdfPrepMeta
      rw [lookupKey_setdefaultKey_ne _ _ _ _ (by decide),
        lookupKey_setdefaultKey_ne _ _ _ _ (by decide)]
      exact h
    rw [lookupKey_setdefaultKey_ne _ _ _ _ (by decide),
      lookupKey_setdefaultKey_self,
      lookupKey_setdefaultKey_ne _ _ _ _ (by decide),
      lookupKey_setdefaultKey_ne _ _ _ _ (by decide), h1]
    rfl

/-- Witness for C9: a caller dict supplying only an author gets the title
defaulted in place while its own author value is preserved. -/
theorem caller_metadata_mutated_in_place_witness :
    lookupKey (pdfDefaultMeta ([("author", "Me")])) ("title") = some ("Document")
    ∧ lookupKey (pdfDefaultMeta ([("author", "Me")])) ("author") = some ("Me")
    ∧ lookupKey (mdToPdfFinalMeta ([("author", "Me")]) ("# T\nx")) ("title")
        = some (extractTitle ("# T\nx")) :=
  ⟨(caller_metadata_mutated_in_place ([("author", "Me")]) ("# T\nx")).1 rfl,
   (caller_metadata_mutated_in_place ([("author", "Me")]) ("# T\nx")).2.2.2.2.1
     ("author") ("Me") rfl,
   (caller_metadata_mutated_in_place ([("author", "Me")]) ("# T\nx")).2.2.2.2.2.1 rfl⟩

/-! ### Markdown conversion (external library, modelled) -/

/-- Modelled from the spec: bold `**…**` emphasis of the external markdown
library (the library itself is not part of this repository). -/
def boldGo : Bool → List Char → List Char
  | _, [] => []
  | b, '*' :: '*' :: rest =>
    (if b then ("</strong>").data else ("<strong>").data) ++ boldGo (!b) rest
  | b, c :: rest => c :: boldGo b rest

def inlineHtml (l : List Char) : List Char := boldGo false l

/-- Modelled from the spec: the anchor slugs of the `toc` extension. -/
def slugChar (c : Char) : Char := if c = ' ' then '-' else c.toLower

def slugOf (l : List Char) : List Char := l.map slugChar

/-- Modelled from the spec: `markdown.Markdown.convert` on one source line
for the subset exercised here — ATX headings of levels 1 to 3 and one-line
paragraphs with bold emphasis; blank lines separate blocks. -/
def lineHtml (l : List Char) : Option (List Char) :=
  if l = [] then none
  else if ("### ").data <+: l then
    some (("<h3>").data ++ inlineHtml (l.drop 4) ++ ("</h3>").data)
  else if ("## ").data <+: l then
    some (("<h2>").data ++ inlineHtml (l.drop 3) ++ ("</h2>").data)
  else if ("# ").data <+: l then
    some (("<h1>").data ++ inlineHtml (l.drop 2) ++ ("</h1>").data)
  else some (("<p>").data ++ inlineHtml l ++ ("</p>").data)

/-- Modelled from the spec: `markdown.Markdown.convert` (body HTML). -/
def mdConvert (content : String) : String :=
  String.mk (List.intercalate (("\n").data) ((splitOnNl content.data).filterMap lineHtml))

/-- Modelled from the spec: the headings the `toc` extension collects,
restricted to levels 2–3 by the `toc_depth = "2-3"` configuration. -/
def headingEntries (content : String) : List (List Char) :=
  (splitOnNl content.data).filterMap fun l =>
    if ("### ").data <+: l then some (l.drop 4)
    else if ("## ").data <+: l then some (l.drop 3)
    else none

def tocEntryHtml (t : List Char) : List Char :=
  ("<li><a href=\"#").data ++ slugOf t ++ ("\">").data ++ t ++ ("</a></li>\n").data

/-- Modelled from the spec: the `md.toc` fragment. -/
def mdToc (content : String) : String :=
  String.mk ((("<div class=\"toc\">\n<ul>\n").data)
    ++ (((headingEntries content).map tocEntryHtml).flatten)
    ++ (("</ul>\n</div>\n").data))

/-! ### Document skeleton (`PDFGenerator._markdown_to_html`) -/

def skelA : String :=
  "<!DOCTYPE html>\n<html lang=\"ko\">\n<head>\n    <meta charset=\"UTF-8\">\n    <meta name=\"viewport\" content=\"width=device-width, initial-scale=1.0\">\n    "

def titleMarker : String := "<title>Document</title>"

def skelB : String := "\n</head>\n<body>\n"

def skelC : String := "\n</body>\n</html>"

/-- The f-string HTML skeleton of `_markdown_to_html`. -/
def skeletonWrap (body : String) : String :=
  skelA ++ titleMarker ++ skelB ++ body ++ skelC

/-- `PDFGenerator._markdown_to_html`: the wrapped body plus the TOC
fragment, which is the empty string whenever the TOC is disabled. -/
def markdownToHtml (content : String) (includeToc : Bool) : String × String :=
  (skeletonWrap (mdConvert content), if includeToc then mdToc content else "")

/-! ### Metadata and TOC injection (`PDFGenerator._add_metadata_to_html`) -/

/-- The generated `<meta>` tag block (`datetime.now()` is the `now`
parameter). -/
def metaTags (now : String) (m : Metadata) : String :=
  "\n    <meta name=\"author\" content=\"" ++ ((lookupKey m ("author")).getD (""))
    ++ "\">\n    <meta name=\"description\" content=\"" ++ ((lookupKey m ("subject")).getD (""))
    ++ "\">\n    <meta name=\"keywords\" content=\"" ++ ((lookupKey m ("keywords")).getD (""))
    ++ "\">\n    <meta name=\"generator\" content=\"PDF Beautifier Agent\">\n    <meta name=\"created\" content=\""
    ++ now ++ "\">\n"

/-- The TOC block (heading + fragment + page-break marker). -/
def tocSection (toc : String) : String :=
  "\n<div class=\"table-of-contents\">\n<h2>목차</h2>\n" ++ toc
    ++ "\n</div>\n<div class=\"page-break\"></div>\n"

/-- `PDFGenerator._add_metadata_to_html`: three global string replacements
against the literal markers `<title>Document</title>`, `</head>` and
`<body>`, the third only for a non-empty TOC fragment. -/
def addMeta (now : String) (html : String) (m : Metadata) (toc : String) : String :=
  let h1 := pyReplace html titleMarker
    ("<title>" ++ ((lookupKey m ("title")).getD ("Document")) ++ "</title>")
  let h2 := pyReplace h1 ("</head>") (metaTags now m ++ "</head>")
  if toc = "" then h2 else pyReplace h2 ("<body>") ("<body>\n" ++ tocSection toc)

/-! ### The two emitters -/

/-- Modelled from the spec: `Path(p).resolve()` — absolute paths are kept,
relative paths are joined to the working directory (path normalization by
the OS is not modelled). -/
def resolvePath (cwd p : String) : String :=
  if ("/").data <+: p.data then p else cwd ++ "/" ++ p

/-- The fixed metadata dict of `PDFGenerator.preview_html`. -/
def previewMeta : Metadata :=
  [("title", "Preview"), ("author", "PDF Beautifier Agent"), ("subject", "HTML Preview")]

/-- `PDFGenerator.preview_html`: convert, materialize CSS, inject the fixed
preview metadata and the TOC, inline the CSS before `</head>`, and write to
the resolved path.  Returns the resolved path and the written content; the
surrounding `try`/`except` wraps any stage failure. -/
def previewHtml (fs : String → Option String) (dir cwd now : String)
    (mdContent outputPath style theme : String) (includeToc : Bool) :
    Except String (String × String) :=
  let pair := markdownToHtml mdContent includeToc
  match generateCss fs dir style theme with
  | Except.error e => Except.error ("HTML 미리보기 생성 실패: " ++ e)
  | Except.ok css =>
    let hm := addMeta now pair.1 previewMeta pair.2
    let withCss := pyReplace hm ("</head>") ("<style>\n" ++ css ++ "\n</style>\n</head>")
    Except.ok (resolvePath cwd outputPath, withCss)

/-- `PDFGenerator.generate_pdf`: convert, materialize CSS, default the
caller's metadata dict in place, assemble the HTML, and hand everything to
the external rendering engine (modelled as succeeding; its failures are
covered by the agent-level `Except` parameters).  Returns the resolved
output path, the defaulted metadata (also the caller's dict post-state),
the assembled HTML and the CSS. -/
def generatePdf (fs : String → Option String) (dir cwd now : String)
    (mdContent outputPath style : String) (meta0 : Option Metadata)
    (theme : String) (includeToc : Bool) :
    Except String (String × Metadata × String × String) :=
  let pair := markdownToHtml mdContent includeToc
  match generateCss fs dir style theme with
  | Except.error e => Except.error ("PDF 생성 실패: " ++ e)
  | Except.ok css =>
    let m := pdfDefaultMeta (meta0.getD [])
    let hm := addMeta now pair.1 m pair.2
    Except.ok (resolvePath cwd outputPath, m, hm, css)

/-! ### Occurrence counting (Python `str.count`) -/

def cntGo (pat : List Char) : Nat → List Char → Nat
  | 0, _ => 0
  | _ + 1, [] => 0
  | f + 1, c :: cs =>
    if pat <+: (c :: cs) then 1 + cntGo pat f (List.drop pat.length (c :: cs))
    else cntGo pat f cs

/-- Python `s.count(pat)` (non-overlapping occurrences). -/
def countOccur (s pat : String) : Nat :=
  cntGo pat.data s.data.length s.data

def listPrefixOf : List Char → List Char → Bool
  | [], _ => true
  | _ :: _, [] => false
  | a :: as, b :: bs => if a = b then listPrefixOf as bs else false

/-- Python `s.endswith(pat)`. -/
def strEndsWith (s pat : String) : Bool :=
  listPrefixOf pat.data.reverse s.data.reverse

/-! ### The end-to-end HTML-mode scenario (C2) -/

/-- A template directory holding only `business_report.css`. -/
def scenarioFs : String → Option String := fun p =>
  if p = "templates/business_report.css" then some ("h1 color #2563eb\nh2 color #1e40af")
  else none

def scenarioNow : String := "2026-01-01T00:00:00"

def scenarioInput : String := "# Title\n\nHello **world**."

/-- The HTML-mode operation on the spec's end-to-end scenario: markdown
`"# Title\n\nHello **world**."`, style `business_report`, theme `blue`,
TOC disabled, output filename `preview.html`. -/
def scenarioOut : Except String (String × String) :=
  previewHtml scenarioFs ("templates") ("/work") scenarioNow scenarioInput
    ("preview.html") ("business_report") ("blue") false

/-- C2 counterexample: on the claimed scenario the operation succeeds, the
written file does contain `<strong>world</strong>`, but it does NOT contain
`<title>Title</title>` — `PDFGenerator.preview_html` hardcodes the metadata
title `"Preview"` and never extracts a title from the markdown. -/
theorem preview_scenario_lacks_markdown_title :
    scenarioOut.toOption.isSome = true
    ∧ strContains ((scenarioOut.toOption.map Prod.snd).getD ("")) ("<strong>world</strong>")
        = true
    ∧ strContains ((scenarioOut.toOption.map Prod.snd).getD ("")) ("<title>Title</title>")
        = false := by
  refine ⟨rfl, rfl, rfl⟩

/-- C2 (amended): the scenario succeeds with an artifact path ending in the
given output filename, and the written HTML contains `<title>Preview</title>`
(the hardcoded preview title) and `<strong>world</strong>`. -/
theorem preview_scenario_succeeds_with_preview_title :
    scenarioOut.toOption.isSome = true
    ∧ strEndsWith ((scenarioOut.toOption.map Prod.fst).getD ("")) ("preview.html") = true
    ∧ strContains ((scenarioOut.toOption.map Prod.snd).getD ("")) ("<title>Preview</title>")
        = true
    ∧ strContains ((scenarioOut.toOption.map Prod.snd).getD ("")) ("<strong>world</strong>")
        = true := by
  refine ⟨rfl, rfl, rfl, rfl⟩

/-! ### The TOC toggle scenario (C7) -/

/-- A markdown document with two level-2 headings. -/
def tocDoc : String := "# Doc\n\n## One\n\nAlpha\n\n## Two\n\nBeta"

/-- C7: with the TOC disabled the converter returns an empty TOC fragment
for every input and no TOC block appears in the assembled document; with
the TOC enabled, the document with two level-2 headings yields a TOC
fragment with exactly two entries, and the assembled document contains,
contiguously, the opening `<body>` tag, the TOC block with its page-break
marker, and then the original body content. -/
theorem toc_toggle_and_injection :
    (∀ content : String, (markdownToHtml content false).2 = "")
    ∧ (∀ (now html : String) (m : Metadata),
        addMeta now html m ("") = pyReplace
          (pyReplace html titleMarker
            ("<title>" ++ ((lookupKey m ("title")).getD ("Document")) ++ "</title>"))
          ("</head>") (metaTags now m ++ "</head>"))
    ∧ strContains
        (addMeta scenarioNow (markdownToHtml tocDoc false).1 previewMeta
          ((markdownToHtml tocDoc false).2))
        ("table-of-contents") = false
    ∧ countOccur ((markdownToHtml tocDoc true).2) ("<li>") = 2
    ∧ strContains
        (addMeta scenarioNow (markdownToHtml tocDoc true).1 previewMeta
          ((markdownToHtml tocDoc true).2))
        ("<body>\n" ++ tocSection ((markdownToHtml tocDoc true).2) ++ "\n" ++ mdConvert tocDoc)
        = true := by
  refine ⟨fun content => rfl, fun now html m => rfl, rfl, rfl, rfl⟩

/-- C8: whatever metadata map the caller supplies to `generate_pdf`
(including none), the defaulted metadata attached to the output always has
both a `title` and an `author` key — stated both for the defaulting
sequence itself and for the metadata component of any successful
`generate_pdf` result. -/
theorem generate_pdf_metadata_has_title_author (m0 : Option Metadata) :
    ((lookupKey (pdfDefaultMeta (m0.getD [])) ("title")).isSome = true
      ∧ (lookupKey (pdfDefaultMeta (m0.getD [])) ("author")).isSome = true)
    ∧ (∀ (fs : String → Option String) (dir cwd now mdc op st th : String)
        (toc : Bool) (p : String) (m : Metadata) (hm css : String),
        generatePdf fs dir cwd now mdc op st m0 th toc = Except.ok (p, m, hm, css) →
        (lookupKey m ("title")).isSome = true
          ∧ (lookupKey m ("author")).isSome = true) := by
  have htitle : (lookupKey (pdfDefaultMeta (m0.getD [])) ("title")).isSome = true := by
    unfold pdfDefaultMeta
    apply lookupKey_setdefaultKey_isSome_mono
    apply lookupKey_setdefaultKey_isSome_mono
    apply lookupKey_setdefaultKey_isSome_mono
    exact lookupKey_setdefaultKey_isSome _ _ _
  have hauthor : (lookupKey (pdfDefaultMeta (m0.getD [])) ("author")).isSome = true := by
    unfold pdfDefaultMeta
    apply lookupKey_setdefaultKey_isSome_mono
    apply lookupKey_setdefaultKey_isSome_mono
    exact lookupKey_setdefaultKey_isSome _ _ _
  refine ⟨⟨htitle, hauthor⟩, ?_⟩
  intro fs dir cwd now mdc op st th toc p m hm css h
  unfold generatePdf at h
  cases hcss : generateCss fs dir st th with
  | error e => rw [hcss] at h; exact Except.noConfusion h
  | ok cssc =>
    rw [hcss] at h
    have hok := Except.ok.inj h
    have hmEq : m = pdfDefaultMeta (m0.getD []) := (Prod.mk.inj (Prod.mk.inj hok).2).1.symm
    rw [hmEq]
    exact ⟨htitle, hauthor⟩

/-- Witness for C8: a concrete successful `generate_pdf` call attaches
metadata carrying both keys. -/
theorem generate_pdf_metadata_has_title_author_witness :
    (lookupKey (pdfDefaultMeta (((none : Option Metadata)).getD [])) ("title")).isSome
        = true
    ∧ (lookupKey (pdfDefaultMeta (((none : Option Metadata)).getD [])) ("author")).isSome
        = true :=
  (generate_pdf_metadata_has_title_author none).2 scenarioFs ("templates") ("/work")
    scenarioNow ("# T") ("o.pdf") ("business_report") ("blue") true
    (resolvePath ("/work") ("o.pdf")) (pdfDefaultMeta [])
    (addMeta scenarioNow (markdownToHtml ("# T") true).1 (pdfDefaultMeta [])
      ((markdownToHtml ("# T") true).2))
    (applyTheme (resolveTheme ("blue")) ("h1 color #2563eb\nh2 color #1e40af")) rfl

/-! ### Properties of the `str.replace` model

The substitution of `_generate_css` replaces 7-character hex color strings
(`'#'` followed by six hex digits) by strings of the same shape.  The
lemmas below show that after such a pass no occurrence of the pattern
remains and no absent pattern is (re)introduced. -/

lemma replGo_nil (pat repl : List Char) : ∀ f, replGo pat repl f [] = [] := by
  intro f
  cases f <;> rfl

lemma replGo_fuel_irrel (pat repl : List Char) (hp : pat ≠ []) :
    ∀ (f1 f2 : Nat) (s : List Char), s.length ≤ f1 → s.length ≤ f2 →
      replGo pat repl f1 s = replGo pat repl f2 s := by
  intro f1
  induction f1 with
  | zero =>
    intro f2 s h1 _
    have hs : s = [] := by
      cases s with
      | nil => rfl
      | cons c cs => simp at h1
    rw [hs, replGo_nil, replGo_nil]
  | succ f ih =>
    intro f2 s h1 h2
    cases s with
    | nil => rw [replGo_nil, replGo_nil]
    | cons c cs =>
      cases f2 with
      | zero => simp at h2
      | succ g =>
        have hplen : 0 < pat.length := List.length_pos.mpr hp
        by_cases hm : pat <+: (c :: cs)
        · rw [show replGo pat repl (f + 1) (c :: cs)
              = if pat <+: (c :: cs) then
                  repl ++ replGo pat repl f (List.drop pat.length (c :: cs))
                else c :: replGo pat repl f cs from rfl]
          rw [show replGo pat repl (g + 1) (c :: cs)
              = if pat <+: (c :: cs) then
                  repl ++ replGo pat repl g (List.drop pat.length (c :: cs))
                else c :: replGo pat repl g cs from rfl]
          rw [if_pos hm, if_pos hm]
          congr 1
          apply ih
          · rw [List.length_drop]
            simp only [List.length_cons] at h1 ⊢
            omega
          · rw [List.length_drop]
            simp only [List.length_cons] at h2 ⊢
            omega
        · rw [show replGo pat repl (f + 1) (c :: cs)
              = if pat <+: (c :: cs) then
              repl ++ replGo pat repl f (List.drop pat.length (c :: cs))
                else c :: replGo pat repl f cs from rfl]
          rw [show replGo pat repl (g + 1) (c :: cs)
              = if pat <+: (c :: cs) then
                  repl ++ replGo pat repl g (List.drop pat.length (c :: cs))
                else c :: replGo pat repl g cs from rfl]
          rw [if_neg hm, if_neg hm]
          congr 1
          apply ih
          · simp only [List.length_cons] at h1
            omega
          · simp only [List.length_cons] at h2
            omega

lemma replList_nil (pat repl : List Char) : replList pat repl [] = [] := rfl

lemma replList_cons_match (pat repl : List Char) (hp : pat ≠ []) (c : Char)
    (cs : List Char) (h : pat <+: (c :: cs)) :
    replList pat repl (c :: cs)
      = repl ++ replList pat repl (List.drop pat.length (c :: cs)) := by
  unfold replList
  simp only [List.length_cons]
  rw [show replGo pat repl (cs.length + 1) (c :: cs)
      = if pat <+: (c :: cs) then
          repl ++ replGo pat repl cs.length (List.drop pat.length (c :: cs))
        else c :: replGo pat repl cs.length cs from rfl]
  rw [if_pos h]
  congr 1
  apply replGo_fuel_irrel pat repl hp
  · rw [List.length_drop]
    have hplen : 0 < pat.length := List.length_pos.mpr hp
    simp only [List.length_cons]
    omega
  · exact le_rfl

lemma replList_cons_nomatch (pat repl : List Char) (c : Char) (cs : List Char)
    (h : ¬ pat <+: (c :: cs)) :
    replList pat repl (c :: cs) = c :: replList pat repl cs := by
  unfold replList
  simp only [List.length_cons]
  rw [show replGo pat repl (cs.length + 1) (c :: cs)
      = if pat <+: (c :: cs) then
          repl ++ replGo pat repl cs.length (List.drop pat.length (c :: cs))
        else c :: replGo pat repl cs.length cs from rfl]
  rw [if_neg h]

/-- A pass leaves a string with no occurrence of the pattern unchanged. -/
lemma replList_no_occurrence (pat repl : List Char) :
    ∀ s, ¬ pat <:+: s → replList pat repl s = s := by
  intro s
  induction s with
  | nil => intro _; rfl
  | cons c cs ih =>
    intro h
    have hnp : ¬ pat <+: (c :: cs) := fun hpre => h hpre.isInfix
    rw [replList_cons_nomatch pat repl c cs hnp]
    rw [ih (fun hi => h (List.infix_cons hi))]

lemma prefix_of_append_of_length_le {t x y : List Char} (h : t <+: x ++ y)
    (hl : t.length ≤ x.length) : t <+: x :=
  List.prefix_of_prefix_length_le h (List.prefix_append x y) hl

/-- A hash-free list that is a prefix of the output of a pass (whose
replacement starts with `'#'`) is a prefix of the input. -/
lemma prefix_replList_no_hash (pat repl : List Char) (hp : pat ≠ [])
    (hR : ∃ rt, repl = '#' :: rt) :
    ∀ (n : Nat) (s t : List Char), s.length ≤ n → '#' ∉ t →
      t <+: replList pat repl s → t <+: s := by
  intro n
  induction n with
  | zero =>
    intro s t hs _ hpre
    have : s = [] := by
      cases s with
      | nil => rfl
      | cons c cs => simp at hs
    subst this
    rw [replList_nil] at hpre
    exact hpre
  | succ n ih =>
    intro s t hs ht hpre
    cases s with
    | nil =>
      rw [replList_nil] at hpre
      exact hpre
    | cons c cs =>
      by_cases hm : pat <+: (c :: cs)
      · rw [replList_cons_match pat repl hp c cs hm] at hpre
        obtain ⟨rt, hr⟩ := hR
        cases t with
        | nil => exact List.nil_prefix
        | cons a ta =>
          rw [hr] at hpre
          rw [List.cons_append, List.cons_prefix_cons] at hpre
          exact absurd (hpre.1 ▸ List.mem_cons_self a ta) ht
      · rw [replList_cons_nomatch pat repl c cs hm] at hpre
        cases t with
        | nil => exact List.nil_prefix
        | cons a ta =>
          rw [List.cons_prefix_cons] at hpre
          have hta : ta <+: cs := by
            apply ih cs ta _ (fun hmem => ht (List.mem_cons_of_mem _ hmem)) hpre.2
            simp only [List.length_cons] at hs
            omega
          exact List.cons_prefix_cons.mpr ⟨hpre.1, hta⟩

/-- A hash-shaped string `A` distinct from the (hash-shaped, same-length)
replacement is not a prefix of the pass output unless it was a prefix of
the input (or is the pattern itself, which the pass eliminates). -/
lemma not_prefix_replList (A pat repl : List Char) (hp : pat ≠ [])
    (hA : ∃ t, A = '#' :: t ∧ '#' ∉ t) (hR : ∃ t, repl = '#' :: t ∧ '#' ∉ t)
    (hlen : A.length = repl.length) (hAne : A ≠ repl)
    (s : List Char) (hcase : A = pat ∨ ¬ A <+: s) :
    ¬ A <+: replList pat repl s := by
  obtain ⟨At, hAAt, hAnotin⟩ := hA
  intro hpre
  cases s with
  | nil =>
    simp only [replList, List.length_nil] at hpre
    rw [replGo_nil] at hpre
    rw [hAAt] at hpre
    simp at hpre
  | cons c cs =>
    by_cases hm : pat <+: (c :: cs)
    · rw [replList_cons_match pat repl hp c cs hm] at hpre
      have hApre : A <+: repl := prefix_of_append_of_length_le hpre (le_of_eq hlen)
      have hAeq : A = repl := by
        have heq := List.prefix_iff_eq_append.mp hApre
        have hlen2 := congrArg List.length heq
        rw [List.length_append] at hlen2
        have h0 : (List.drop A.length repl).length = 0 := by omega
        rw [List.eq_nil_of_length_eq_zero h0, List.append_nil] at heq
        exact heq
      exact hAne hAeq
    · rw [replList_cons_nomatch pat repl c cs hm] at hpre
      rw [hAAt, List.cons_prefix_cons] at hpre
      have hta : At <+: cs :=
        prefix_replList_no_hash pat repl hp ⟨hR.choose, hR.choose_spec.1⟩
          cs.length cs At le_rfl hAnotin hpre.2
      have hAs : A <+: (c :: cs) := by
        rw [hAAt]
        exact List.cons_prefix_cons.mpr ⟨hpre.1, hta⟩
      rcases hcase with heq | hnot
      · exact hm (heq ▸ hAs)
      · exact hnot hAs

/-- Decomposition of an occurrence inside a concatenation: it lies in the
left part, in the right part, or spans the boundary. -/
lemma infix_append_cases {u v w : List Char} (h : w <:+: u ++ v) :
    w <:+: u ∨ w <:+: v
      ∨ ∃ a b, a ++ b = w ∧ a ≠ [] ∧ b ≠ [] ∧ a <:+ u ∧ b <+: v := by
  induction u with
  | nil =>
    right; left
    simpa using h
  | cons x u ih =>
    rw [List.cons_append] at h
    rcases List.infix_cons_iff.mp h with hpre | hinf
    · rw [← List.cons_append] at hpre
      by_cases hl : w.length ≤ (x :: u).length
      · exact Or.inl (prefix_of_append_of_length_le hpre hl).isInfix
      · right; right
        have hxu : (x :: u) <+: w :=
          List.prefix_of_prefix_length_le (List.prefix_append (x :: u) v) hpre
            (by omega)
        have hsplit : (x :: u) ++ List.drop (x :: u).length w = w :=
          List.prefix_iff_eq_append.mp hxu
        refine ⟨x :: u, List.drop (x :: u).length w, hsplit, by simp, ?_, List.suffix_refl _, ?_⟩
        · have : 0 < (List.drop (x :: u).length w).length := by
            rw [List.length_drop]
            omega
          exact List.ne_nil_of_length_pos this
        · obtain ⟨t, ht⟩ := hpre
          rw [← hsplit, List.append_assoc] at ht
          have := List.append_cancel_left ht
          exact ⟨t, this⟩
    · rcases ih hinf with h1 | h2 | ⟨a, b, hab, ha, hb, hsuf, hpre2⟩
      · exact Or.inl (List.infix_cons h1)
      · exact Or.inr (Or.inl h2)
      · exact Or.inr (Or.inr ⟨a, b, hab, ha, hb, hsuf.trans (List.suffix_cons x u), hpre2⟩)

/-- Core lemma: a hash-shaped 7-character string `A`, distinct from the
hash-shaped same-length replacement, does not occur in the pass output
when it is the pattern itself or did not occur in the input. -/
lemma not_infix_replList (A pat repl : List Char) (hp : pat ≠ [])
    (hA : ∃ t, A = '#' :: t ∧ '#' ∉ t) (hR : ∃ t, repl = '#' :: t ∧ '#' ∉ t)
    (hlen : A.length = repl.length) (hAne : A ≠ repl) :
    ∀ (n : Nat) (s : List Char), s.length ≤ n → (A = pat ∨ ¬ A <:+: s) →
      ¬ A <:+: replList pat repl s := by
  intro n
  induction n with
  | zero =>
    intro s hs _ hinf
    have : s = [] := by
      cases s with
      | nil => rfl
      | cons c cs => simp at hs
    subst this
    simp only [replList, List.length_nil] at hinf
    rw [replGo_nil] at hinf
    obtain ⟨At, hAAt, _⟩ := hA
    rw [List.infix_nil] at hinf
    rw [hAAt] at hinf
    exact List.noConfusion hinf
  | succ n ih =>
    intro s hs hcase hinf
    cases s with
    | nil =>
      simp only [replList, List.length_nil] at hinf
      rw [replGo_nil] at hinf
      obtain ⟨At, hAAt, _⟩ := hA
      rw [List.infix_nil] at hinf
      rw [hAAt] at hinf
      exact List.noConfusion hinf
    | cons c cs =>
      have hplen : 0 < pat.length := List.length_pos.mpr hp
      by_cases hm : pat <+: (c :: cs)
      · rw [replList_cons_match pat repl hp c cs hm] at hinf
        rcases infix_append_cases hinf with h1 | h2 | ⟨a, b, hab, ha, hb, hsuf, hpre⟩
        · exact hAne (h1.sublist.eq_of_length hlen)
        · have hdroplen : (List.drop pat.length (c :: cs)).length ≤ n := by
            rw [List.length_drop]
            simp only [List.length_cons] at hs ⊢
            omega
          have hcase2 : A = pat ∨ ¬ A <:+: List.drop pat.length (c :: cs) := by
            rcases hcase with heq | hnot
            · exact Or.inl heq
            · exact Or.inr fun h' =>
                hnot (h'.trans (List.drop_suffix _ _).isInfix)
          exact ih _ hdroplen hcase2 h2
        · obtain ⟨rt, hrrt, hrnotin⟩ := hR
          obtain ⟨At, hAAt, _⟩ := hA
          have halen : a.length < repl.length := by
            have h1 : a.length + b.length = A.length := by
              rw [← hab, List.length_append]
            have hbpos : 0 < b.length := List.length_pos.mpr hb
            omega
          have hasuffix : a <:+ rt := by
            rw [hrrt] at hsuf
            rcases List.suffix_cons_iff.mp hsuf with heq | h
            · rw [heq] at halen
              rw [hrrt] at halen
              simp at halen
            · exact h
          have hmem : '#' ∈ a := by
            cases a with
            | nil => exact absurd rfl ha
            | cons x xs =>
              have hpa : (x :: xs) <+: A := ⟨b, hab⟩
              rw [hAAt, List.cons_prefix_cons] at hpa
              rw [hpa.1]
              exact List.mem_cons_self _ _
          exact hrnotin (hasuffix.subset hmem)
      · rw [replList_cons_nomatch pat repl c cs hm] at hinf
        rcases List.infix_cons_iff.mp hinf with hpre | hinf2
        · have hcase' : A = pat ∨ ¬ A <+: (c :: cs) := by
            rcases hcase with heq | hnot
            · exact Or.inl heq
            · exact Or.inr fun h' => hnot h'.isInfix
          rw [← replList_cons_nomatch pat repl c cs hm] at hpre
          exact not_prefix_replList A pat repl hp hA hR hlen hAne (c :: cs) hcase' hpre
        · have hcase2 : A = pat ∨ ¬ A <:+: cs := by
            rcases hcase with heq | hnot
            · exact Or.inl heq
            · exact Or.inr fun h' => hnot (List.infix_cons h')
          exact ih cs (by simp only [List.length_cons] at hs; omega) hcase2 hinf2

/-- C5: materializing any CSS template text for theme "green" produces
output with zero occurrences of the five canonical blue placeholder hex
values — each pass removes its own placeholder and no later pass can
reintroduce an earlier one. -/
theorem green_materialization_removes_placeholders (css : String) :
    strContains (applyTheme (resolveTheme ("green")) css) ("#2563eb") = false
    ∧ strContains (applyTheme (resolveTheme ("green")) css) ("#1e40af") = false
    ∧ strContains (applyTheme (resolveTheme ("green")) css) ("#1e3a8a") = false
    ∧ strContains (applyTheme (resolveTheme ("green")) css) ("#3b82f6") = false
    ∧ strContains (applyTheme (resolveTheme ("green")) css) ("#dbeafe") = false := by
  have hrw : applyTheme (resolveTheme ("green")) css
      = pyReplace (pyReplace (pyReplace (pyReplace (pyReplace css ("#2563eb") ("#059669"))
          ("#1e40af") ("#047857")) ("#1e3a8a") ("#065f46")) ("#3b82f6") ("#10b981"))
          ("#dbeafe") ("#d1fae5") := rfl
  rw [hrw]
  refine ⟨?_, ?_, ?_, ?_, ?_⟩
  · rw [strContains, decide_eq_false_iff_not]
    have a1 : ¬ ("#2563eb").data <:+:
        replList (("#2563eb").data) (("#059669").data) css.data :=
      not_infix_replList _ _ _ (by decide) ⟨("2563eb").data, rfl, by decide⟩
        ⟨("059669").data, rfl, by decide⟩ (by decide) (by decide) _ _ le_rfl (Or.inl rfl)
    have a2 : ¬ ("#2563eb").data <:+:
        replList (("#1e40af").data) (("#047857").data)
          (replList (("#2563eb").data) (("#059669").data) css.data) :=
      not_infix_replList _ _ _ (by decide) ⟨("2563eb").data, rfl, by decide⟩
        ⟨("047857").data, rfl, by decide⟩ (by decide) (by decide) _ _ le_rfl (Or.inr a1)
    have a3 : ¬ ("#2563eb").data <:+:
        replList (("#1e3a8a").data) (("#065f46").data)
          (replList (("#1e40af").data) (("#047857").data)
            (replList (("#2563eb").data) (("#059669").data) css.data)) :=
      not_infix_replList _ _ _ (by decide) ⟨("2563eb").data, rfl, by decide⟩
        ⟨("065f46").data, rfl, by decide⟩ (by decide) (by decide) _ _ le_rfl (Or.inr a2)
    have a4 : ¬ ("#2563eb").data <:+:
        replList (("#3b82f6").data) (("#10b981").data)
          (replList (("#1e3a8a").data) (("#065f46").data)
            (replList (("#1e40af").data) (("#047857").data)
              (replList (("#2563eb").data) (("#059669").data) css.data))) :=
      not_infix_replList _ _ _ (by decide) ⟨("2563eb").data, rfl, by decide⟩
        ⟨("10b981").data, rfl, by decide⟩ (by decide) (by decide) _ _ le_rfl (Or.inr a3)
    exact not_infix_replList _ _ _ (by decide) ⟨("2563eb").data, rfl, by decide⟩
      ⟨("d1fae5").data, rfl, by decide⟩ (by decide) (by decide) _ _ le_rfl (Or.inr a4)
  · rw [strContains, decide_eq_false_iff_not]
    have a2 : ¬ ("#1e40af").data <:+:
        replList (("#1e40af").data) (("#047857").data)
          (replList (("#2563eb").data) (("#059669").data) css.data) :=
      not_infix_replList _ _ _ (by decide) ⟨("1e40af").data, rfl, by decide⟩
        ⟨("047857").data, rfl, by decide⟩ (by decide) (by decide) _ _ le_rfl (Or.inl rfl)
    have a3 : ¬ ("#1e40af").data <:+:
        replList (("#1e3a8a").data) (("#065f46").data)
          (replList (("#1e40af").data) (("#047857").data)
            (replList (("#2563eb").data) (("#059669").data) css.data)) :=
      not_infix_replList _ _ _ (by decide) ⟨("1e40af").data, rfl, by decide⟩
        ⟨("065f46").data, rfl, by decide⟩ (by decide) (by decide) _ _ le_rfl (Or.inr a2)
    have a4 : ¬ ("#1e40af").data <:+:
        replList (("#3b82f6").data) (("#10b981").data)
          (replList (("#1e3a8a").data) (("#065f46").data)
            (replList (("#1e40af").data) (("#047857").data)
              (replList (("#2563eb").data) (("#059669").data) css.data))) :=
      not_infix_replList _ _ _ (by decide) ⟨("1e40af").data, rfl, by decide⟩
        ⟨("10b981").data, rfl, by decide⟩ (by decide) (by decide) _ _ le_rfl (Or.inr a3)
    exact not_infix_replList _ _ _ (by decide) ⟨("1e40af").data, rfl, by decide⟩
      ⟨("d1fae5").data, rfl, by decide⟩ (by decide) (by decide) _ _ le_rfl (Or.inr a4)
  · rw [strContains, decide_eq_false_iff_not]
    have a3 : ¬ ("#1e3a8a").data <:+:
        replList (("#1e3a8a").data) (("#065f46").data)
          (replList (("#1e40af").data) (("#047857").data)
            (replList (("#2563eb").data) (("#059669").data) css.data)) :=
      not_infix_replList _ _ _ (by decide) ⟨("1e3a8a").data, rfl, by decide⟩
        ⟨("065f46").data, rfl, by decide⟩ (by decide) (by decide) _ _ le_rfl (Or.inl rfl)
    have a4 : ¬ ("#1e3a8a").data <:+:
        replList (("#3b82f6").data) (("#10b981").data)
          (replList (("#1e3a8a").data) (("#065f46").data)
            (replList (("#1e40af").data) (("#047857").data)
              (replList (("#2563eb").data) (("#059669").data) css.data))) :=
      not_infix_replList _ _ _ (by decide) ⟨("1e3a8a").data, rfl, by decide⟩
        ⟨("10b981").data, rfl, by decide⟩ (by decide) (by decide) _ _ le_rfl (Or.inr a3)
    exact not_infix_replList _ _ _ (by decide) ⟨("1e3a8a").data, rfl, by decide⟩
      ⟨("d1fae5").data, rfl, by decide⟩ (by decide) (by decide) _ _ le_rfl (Or.inr a4)
  · rw [strContains, decide_eq_false_iff_not]
    have a4 : ¬ ("#3b82f6").data <:+:
        replList (("#3b82f6").data) (("#10b981").data)
          (replList (("#1e3a8a").data) (("#065f46").data)
            (replList (("#1e40af").data) (("#047857").data)
              (replList (("#2563eb").data) (("#059669").data) css.data))) :=
      not_infix_replList _ _ _ (by decide) ⟨("3b82f6").data, rfl, by decide⟩
        ⟨("10b981").data, rfl, by decide⟩ (by decide) (by decide) _ _ le_rfl (Or.inl rfl)
    exact not_infix_replList _ _ _ (by decide) ⟨("3b82f6").data, rfl, by decide⟩
      ⟨("d1fae5").data, rfl, by decide⟩ (by decide) (by decide) _ _ le_rfl (Or.inr a4)
  · rw [strContains, decide_eq_false_iff_not]
    exact not_infix_replList _ _ _ (by decide) ⟨("dbeafe").data, rfl, by decide⟩
      ⟨("d1fae5").data, rfl, by decide⟩ (by decide) (by decide) _ _ le_rfl (Or.inl rfl)

/-! ### Splitting a replacement pass around a known occurrence -/

/-- No occurrence of `pat` starts strictly before the final position in
`u ++ pat` — the shape needed to walk a pass across a clean prefix `u`. -/
def cleanBefore (pat u : List Char) : Prop :=
  ∀ i, i < u.length → ¬ pat <+: List.drop i (u ++ pat)

/-- No proper suffix of `B` is a prefix of `pat` (kills occurrences that
straddle the boundary between `B` and what follows it). -/
def noStraddle (pat B : List Char) : Prop :=
  ∀ i, i < B.length → B.length - i < pat.length → ¬ List.drop i B <+: pat

instance (pat u : List Char) : Decidable (cleanBefore pat u) := by
  unfold cleanBefore
  infer_instance

instance (pat B : List Char) : Decidable (noStraddle pat B) := by
  unfold noStraddle
  infer_instance

lemma prefix_part {pat d X : List Char} (h : pat <+: d ++ X)
    (hl : d.length ≤ pat.length) : d <+: pat := by
  have h2 : List.take d.length pat <+: d ++ X := (List.take_prefix _ _).trans h
  have h3 : List.take d.length pat <+: d :=
    List.prefix_of_prefix_length_le h2 (List.prefix_append d X)
      (by rw [List.length_take]; omega)
  have h4 : (List.take d.length pat).length = d.length := by
    rw [List.length_take]
    omega
  have h5 : List.take d.length pat = d := h3.sublist.eq_of_length h4
  rw [← h5]
  exact List.take_prefix _ _

lemma cleanBefore_append {pat B u : List Char} (h1 : cleanBefore pat B)
    (h2 : noStraddle pat B) (h3 : cleanBefore pat u) :
    cleanBefore pat (B ++ u) := by
  intro i hi hpre
  rw [List.append_assoc] at hpre
  by_cases hc : i < B.length
  · rw [List.drop_append_of_le_length (le_of_lt hc)] at hpre
    by_cases hl : pat.length ≤ (List.drop i B).length
    · have hpB : pat <+: List.drop i B :=
        prefix_of_append_of_length_le hpre hl
      apply h1 i hc
      rw [List.drop_append_of_le_length (le_of_lt hc)]
      exact hpB.trans (List.prefix_append _ _)
    · have hll : B.length - i < pat.length := by
        rw [List.length_drop] at hl
        omega
      have hd : List.drop i B <+: pat :=
        prefix_part hpre (by rw [List.length_drop]; omega)
      exact h2 i hc hll hd
  · push_neg at hc
    obtain ⟨j, hj⟩ : ∃ j, i = B.length + j := ⟨i - B.length, by omega⟩
    rw [hj, List.drop_append] at hpre
    apply h3 j _ hpre
    rw [List.length_append] at hi
    omega

/-- A pass over `x ++ pat ++ y` with no occurrence starting inside `x`
replaces that occurrence and continues in `y`. -/
lemma replList_split (pat repl : List Char) (hp : pat ≠ []) :
    ∀ x y, cleanBefore pat x →
      replList pat repl (x ++ (pat ++ y)) = x ++ repl ++ replList pat repl y := by
  intro x
  induction x with
  | nil =>
    intro y _
    rw [List.nil_append, List.nil_append]
    cases pat with
    | nil => exact absurd rfl hp
    | cons p0 pt =>
      rw [List.cons_append]
      rw [replList_cons_match (p0 :: pt) repl (by simp) p0 (pt ++ y)
        (by rw [← List.cons_append]; exact List.prefix_append _ _)]
      congr 2
      rw [← List.cons_append, List.drop_left]
  | cons c x ih =>
    intro y hclean
    have h0 := hclean 0 (by simp)
    rw [List.drop_zero] at h0
    have hnm : ¬ pat <+: c :: (x ++ (pat ++ y)) := by
      intro hpre
      apply h0
      have hpre2 : pat <+: ((c :: x) ++ pat) ++ y := by
        rw [List.append_assoc, List.cons_append]
        exact hpre
      exact prefix_of_append_of_length_le hpre2
        (by rw [List.length_append]; omega)
    rw [List.cons_append, replList_cons_nomatch pat repl c _ hnm]
    have hclean2 : cleanBefore pat x := by
      intro i hi
      have hstep := hclean (i + 1) (by simp only [List.length_cons]; omega)
      rw [List.cons_append, List.drop_succ_cons] at hstep
      exact hstep
    rw [ih y hclean2]
    simp

/-! ### Killing occurrences across concatenation boundaries -/

lemma not_infix_append_right (pat L R : List Char) (hL : ¬ pat <:+: L)
    (hR : ¬ pat <:+: R)
    (hspan : ∀ j, j < pat.length - 1 → ¬ List.drop (j + 1) pat <+: R) :
    ¬ pat <:+: L ++ R := by
  intro h
  rcases infix_append_cases h with h1 | h2 | ⟨a, b, hab, ha, hb, hsuf, hpre⟩
  · exact hL h1
  · exact hR h2
  · have hbdrop : List.drop a.length pat = b := by
      rw [← hab]
      exact List.drop_left a b
    have halen : 0 < a.length := List.length_pos.mpr ha
    have hblen : 0 < b.length := List.length_pos.mpr hb
    have hlen : a.length < pat.length := by
      have : a.length + b.length = pat.length := by
        rw [← hab, List.length_append]
      omega
    have hj : a.length - 1 + 1 = a.length := by omega
    apply hspan (a.length - 1) (by omega)
    rw [hj, hbdrop]
    exact hpre

lemma not_infix_append_left (pat L R : List Char) (hL : ¬ pat <:+: L)
    (hR : ¬ pat <:+: R)
    (hspan : ∀ j, j < pat.length - 1 → ¬ List.take (j + 1) pat <:+ L) :
    ¬ pat <:+: L ++ R := by
  intro h
  rcases infix_append_cases h with h1 | h2 | ⟨a, b, hab, ha, hb, hsuf, hpre⟩
  · exact hL h1
  · exact hR h2
  · have hatake : List.take a.length pat = a := by
      rw [← hab]
      exact List.take_left a b
    have halen : 0 < a.length := List.length_pos.mpr ha
    have hblen : 0 < b.length := List.length_pos.mpr hb
    have hlen : a.length < pat.length := by
      have : a.length + b.length = pat.length := by
        rw [← hab, List.length_append]
      omega
    have hj : a.length - 1 + 1 = a.length := by omega
    apply hspan (a.length - 1) (by omega)
    rw [hj, hatake]
    exact hsuf

/-- Span conditions over a concatenation whose left half is long enough
reduce to span conditions over that left half. -/
lemma drop_not_prefix_of_concat (pat T : List Char)
    (h : ∀ j, j < pat.length - 1 → ¬ List.drop (j + 1) pat <+: T)
    (hlen : pat.length ≤ T.length + 1) :
    ∀ (X : List Char) (j : Nat), j < pat.length - 1 →
      ¬ List.drop (j + 1) pat <+: T ++ X := by
  intro X j hj hp
  apply h j hj
  apply prefix_of_append_of_length_le hp
  rw [List.length_drop]
  omega

/-- Strings are equal when their character lists are. -/
lemma str_ext {a b : String} (h : a.data = b.data) : a = b := by
  cases a
  cases b
  exact congrArg String.mk h

lemma pyReplace_data (s pat repl : String) :
    (pyReplace s pat repl).data = replList pat.data repl.data s.data := rfl

/-! ### The global-replacement behavior of `_add_metadata_to_html` (C10) -/

/-- A metadata dict with a one-character title, used to exhibit the
marker rewrites. -/
def mTest : Metadata :=
  [("title", "T"), ("author", "A"), ("subject", "S"), ("keywords", "K")]

/-- A converted body that happens to contain all three literal markers. -/
def bodyMarked : String :=
  "<p>A</p>\n<title>Document</title>\n</head>\n<body>\n<p>B</p>"

def tocMini : String := "<ul><li>X</li></ul>"

/-- C10: metadata and TOC injection are global substring replacements.
First conjunct: for every body of the form `u ++ "<title>Document</title>"
++ v` (with the decidable side conditions stating that `u` and `v` carry no
further or straddling marker occurrences), `_add_metadata_to_html` rewrites
the title marker both in the head skeleton and inside the body.  Second
group: on a concrete body containing all three markers, with a non-empty
TOC, the title replacement, the meta-tag insertion and the TOC insertion
each happen exactly twice — at the skeleton occurrence and at the body
occurrence. -/
theorem add_metadata_replaces_markers_globally :
    (∀ u v : String,
      cleanBefore titleMarker.data u.data →
      (¬ titleMarker.data <:+: v.data) →
      (¬ ("</head>").data <:+: u.data) →
      (¬ ("</head>").data <:+: v.data) →
      addMeta scenarioNow (skeletonWrap (u ++ titleMarker ++ v)) mTest ("")
        = skelA ++ "<title>T</title>" ++ "\n" ++ metaTags scenarioNow mTest
          ++ "</head>" ++ "\n<body>\n" ++ u ++ "<title>T</title>" ++ v ++ skelC)
    ∧ countOccur (addMeta scenarioNow (skeletonWrap bodyMarked) mTest tocMini)
        ("<title>T</title>") = 2
    ∧ countOccur (addMeta scenarioNow (skeletonWrap bodyMarked) mTest tocMini)
        titleMarker = 0
    ∧ countOccur (addMeta scenarioNow (skeletonWrap bodyMarked) mTest tocMini)
        (metaTags scenarioNow mTest ++ "</head>") = 2
    ∧ countOccur (addMeta scenarioNow (skeletonWrap bodyMarked) mTest tocMini)
        ("<body>\n" ++ tocSection tocMini) = 2 := by
  refine ⟨?_, rfl, rfl, rfl, rfl⟩
  intro u v hu1 hv1 hu2 hv2
  apply str_ext
  have hAM : addMeta scenarioNow (skeletonWrap (u ++ titleMarker ++ v)) mTest ("")
      = pyReplace
          (pyReplace (skeletonWrap (u ++ titleMarker ++ v)) titleMarker
            ("<title>T</title>"))
          ("</head>") (metaTags scenarioNow mTest ++ "</head>") := rfl
  rw [hAM, pyReplace_data, pyReplace_data]
  have hskel : (skeletonWrap (u ++ titleMarker ++ v)).data
      = skelA.data ++ (titleMarker.data ++ ((skelB.data ++ u.data)
          ++ (titleMarker.data ++ (v.data ++ skelC.data)))) := by
    simp [skeletonWrap, String.data_append, List.append_assoc]
  rw [hskel]
  rw [replList_split titleMarker.data (("<title>T</title>").data) (by decide)
    skelA.data _ (by decide)]
  rw [replList_split titleMarker.data (("<title>T</title>").data) (by decide)
    (skelB.data ++ u.data) _
    (cleanBefore_append (by decide) (by decide) hu1)]
  have hvC : ¬ titleMarker.data <:+: v.data ++ skelC.data :=
    not_infix_append_right _ _ _ hv1 (by decide) (by decide)
  rw [replList_no_occurrence _ _ _ hvC]
  have c1 : ¬ ("</head>").data <:+: v.data ++ skelC.data :=
    not_infix_append_right _ _ _ hv2 (by decide) (by decide)
  have c2 : ¬ ("</head>").data <:+:
      (("<title>T</title>").data) ++ (v.data ++ skelC.data) :=
    not_infix_append_left _ _ _ (by decide) c1 (by decide)
  have c3 : ¬ ("</head>").data <:+:
      u.data ++ ((("<title>T</title>").data) ++ (v.data ++ skelC.data)) :=
    not_infix_append_right _ _ _ hu2 c2
      (drop_not_prefix_of_concat _ _ (by decide) (by decide) _)
  have c4 : ¬ ("</head>").data <:+:
      ("\n<body>\n").data ++ (u.data ++ ((("<title>T</title>").data)
        ++ (v.data ++ skelC.data))) :=
    not_infix_append_left _ _ _ (by decide) c3 (by decide)
  have hL1 : (skelA.data ++ ("<title>T</title>").data)
        ++ (((skelB.data ++ u.data) ++ ("<title>T</title>").data)
          ++ (v.data ++ skelC.data))
      = (skelA.data ++ ((("<title>T</title>").data) ++ ("\n").data))
        ++ ((("</head>").data) ++ (("\n<body>\n").data ++ (u.data
          ++ ((("<title>T</title>").data) ++ (v.data ++ skelC.data))))) := by
    have hB : skelB.data
        = ("\n").data ++ ((("</head>").data) ++ ("\n<body>\n").data) := rfl
    rw [hB]
    simp [List.append_assoc]
  rw [hL1]
  rw [replList_split (("</head>").data)
    ((metaTags scenarioNow mTest ++ "</head>").data) (by decide)
    (skelA.data ++ ((("<title>T</title>").data) ++ ("\n").data)) _ (by decide)]
  rw [replList_no_occurrence _ _ _ c4]
  simp [String.data_append, List.append_assoc]

/-- Witness for C10: the global title rewrite on a concrete body containing
the title marker. -/
theorem add_metadata_replaces_markers_globally_witness :
    addMeta scenarioNow (skeletonWrap ("<p>x</p>" ++ titleMarker ++ "<p>y</p>"))
        mTest ("")
      = skelA ++ "<title>T</title>" ++ "\n" ++ metaTags scenarioNow mTest
        ++ "</head>" ++ "\n<body>\n" ++ "<p>x</p>" ++ "<title>T</title>"
        ++ "<p>y</p>" ++ skelC :=
  add_metadata_replaces_markers_globally.1 ("<p>x</p>") ("<p>y</p>")
    (by decide) (by decide) (by decide) (by decide)

end PdfBeautifier
